import Mathlib

/-!
Verification of the business-plan document generation and versioning
subsystem of the `aire` repository.

The definitions below are a shallow embedding of the TypeScript source:

* `src/lib/document-processor.ts` — `createBusinessPlanFromTemplate`
  (section assembly, logo decoding, heading styles);
* `src/unnamed/part_014` (the business agent route) — the
  `createBusinessPlanDocx`, `saveClientBranding` and `saveClientDocument`
  tools (versioning, branding fallback, persistence ordering);
* `src/app/api/files/[fileId]/route.ts` (the user-path agent route) — the
  `createBusinessPlanDocx` and `saveBranding` tools (per-field branding
  resolution with explicit color overrides);
* `src/unnamed/part_002` — the client schema (`documents` sub-records).

JavaScript strings are modelled as Lean `String`/`List Char`; JS truthiness
on optional strings and numbers is modelled explicitly (`jsTruthyStr`,
`jsOrStr`, `jsOrNat`).  External fallible operations (reading the bundled
default logo from disk, `Buffer.from(_, "base64")` whose failure the source
catches, `GeneratedFile.create` and `Client.updateOne` storage writes) are
modelled as `Option`-valued inputs / `Bool` success flags, exactly at the
points where the source wraps them in `try`/`catch`.
-/

set_option maxHeartbeats 1000000

namespace Aire

/-! ### JavaScript string primitives -/

/-- JS `s.startsWith(pre)`: `pre` is a prefix of `s`. -/
def jsStartsWith (s pre : String) : Bool :=
  pre.data.isPrefixOf s.data

/-- JS truthiness of an optional string: `undefined`, `null` and `""` are falsy. -/
def jsTruthyStr : Option String → Bool
  | some v => if v = "" then false else true
  | none => false

/-- JS `v || dflt` for an optional string against a string default. -/
def jsOrStr (v : Option String) (dflt : String) : String :=
  match v with
  | some s => if s = "" then dflt else s
  | none => dflt

/-- JS `a || b` for two optional strings. -/
def jsOrOpt (a b : Option String) : Option String :=
  match a with
  | some s => if s = "" then b else some s
  | none => b

/-- JS `v || undefined` (also `v || null`): a falsy value becomes absent. -/
def truthyOrNone (v : Option String) : Option String :=
  match v with
  | some s => if s = "" then none else some s
  | none => none

/-- JS `v || dflt` for an optional number: `undefined` and `0` are falsy. -/
def jsOrNat (v : Option Nat) (dflt : Nat) : Nat :=
  match v with
  | some n => if n = 0 then dflt else n
  | none => dflt

/-- The replacement map of `title.replace(/[^a-z0-9]/gi, "_")`: a character
outside `[a-zA-Z0-9]` becomes `'_'`. -/
def sanitizeChar (c : Char) : Char :=
  if c.isAlphanum then c else '_'

/-- JS `s.replace(/[^a-z0-9]/gi, "_").toLowerCase()` (from the filename
derivations in `part_014` line 352 and `route.ts` line 317). -/
def jsSanitize (s : String) : String :=
  String.mk ((s.data.map sanitizeChar).map Char.toLower)

/-- Remove the first `'#'` of a character list, as JS `s.replace("#", "")`
does with a plain (non-global, non-regex) pattern. -/
def removeFirstHash : List Char → List Char
  | [] => []
  | c :: cs => if c = '#' then cs else c :: removeFirstHash cs

/-- JS `s.replace("#", "")`. -/
def replaceFirstHash (s : String) : String :=
  String.mk (removeFirstHash s.data)

/-- JS `s.toLowerCase()` restricted to the ASCII range the source feeds it. -/
def jsToLower (s : String) : String :=
  String.mk (s.data.map Char.toLower)

/-- The whitespace characters JS `trim()` strips (ASCII whitespace plus
NBSP and the BOM; the exotic Unicode space separators never appear in the
inputs the source handles). -/
def jsIsSpace (c : Char) : Bool :=
  c == ' ' || c == '\t' || c == '\n' || c == '\r' ||
  c == '\x0b' || c == '\x0c' || c == '\u00A0' || c == '\uFEFF'

/-- JS `s.trim()` on a character list. -/
def jsTrim (cs : List Char) : List Char :=
  ((cs.dropWhile jsIsSpace).reverse.dropWhile jsIsSpace).reverse

/-- JS `s.split(sep)` for a single-character separator: `""` yields `[""]`,
adjacent separators yield empty fields. -/
def splitOnChar (sep : Char) : List Char → List (List Char)
  | [] => [[]]
  | c :: cs =>
    if c = sep then [] :: splitOnChar sep cs
    else
      match splitOnChar sep cs with
      | [] => [[c]]
      | l :: ls => (c :: l) :: ls

/-- JS `content.split("\n")`. -/
def splitLines (s : String) : List String :=
  (splitOnChar '\n' s.data).map String.mk

/-! ### Data model (client schema, `part_002`) -/

/-- One entry of a client's `documents` list (`ClientDocumentSchema`).
`version` is the value the writing tool itself pushes: the generation tool
pushes `version: nextVersion`, while `saveClientDocument` pushes no
`version` field (the mongoose schema default of `1` and the reader's
`d.version || 1` both make an absent version count as `1`). -/
structure ClientDocument where
  name : String
  content : Option String := none
  type : Option String := none
  fileId : Option Nat := none
  version : Option Nat := none
deriving Repr, DecidableEq

/-- The client branding sub-record. -/
structure Branding where
  logo : Option String := none
  primaryColor : Option String := none
  secondaryColor : Option String := none
  font : Option String := none
deriving Repr, DecidableEq

/-- The part of a client record the generation subsystem touches. -/
structure Client where
  branding : Branding := {}
  documents : List ClientDocument := []
deriving Repr, DecidableEq

/-- The stored user branding fields (`IUser.logo/primaryColor/secondaryColor`). -/
structure UserRecord where
  logo : Option String := none
  primaryColor : Option String := none
  secondaryColor : Option String := none
deriving Repr, DecidableEq

/-! ### Version namer (`part_014`, `createBusinessPlanDocx` lines 342-352) -/

/-- `client.documents.filter((d) => d.name.startsWith(title))`. -/
def sameTitleDocs (documents : List ClientDocument) (title : String) :
    List ClientDocument :=
  documents.filter (fun d => jsStartsWith d.name title)

/-- The next version number: `1` when nothing matches, otherwise
`Math.max(...matched.map((d) => d.version || 1)) + 1`. -/
def nextVersion (documents : List ClientDocument) (title : String) : Nat :=
  let matched := sameTitleDocs documents title
  if matched.length > 0 then
    (matched.map (fun d => jsOrNat d.version 1)).foldl max 0 + 1
  else 1

/-- The versioned display title: backtick-template `title (vN)`. -/
def versionedTitle (title : String) (v : Nat) : String :=
  title ++ " (v" ++ toString v ++ ")"

/-- The derived storage filename (`part_014` line 352). -/
def finalFilename (title : String) (v : Nat) : String :=
  jsSanitize (versionedTitle title v) ++ ".docx"

/-! ### Section assembler and document encoder
(`document-processor.ts`, `createBusinessPlanFromTemplate`) -/

/-- `BusinessPlanSection`: `level` is an optional JS number. -/
structure BusinessPlanSection where
  title : String
  content : String
  level : Option Int := none
deriving Repr, DecidableEq

/-- The docx heading ranks the source uses (`HeadingLevel.HEADING_1/2/3`). -/
inductive HeadingRank where
  | one
  | two
  | three
deriving Repr, DecidableEq

/-- One block-level node of the assembled document.  The docx `Paragraph`
objects of the source are distinguished by their role: the embedded logo
image, the `HeadingLevel.TITLE` paragraph, a section heading, or a plain
content paragraph. -/
inductive DocBlock where
  | image (imageType : String) (data : List Nat)
  | titleBlock (text : String)
  | heading (rank : HeadingRank) (text : String)
  | para (text : String)
deriving Repr, DecidableEq

/-- `section.level === 2 ? HEADING_2 : section.level === 3 ? HEADING_3 :
HEADING_1`. -/
def headingForLevel (level : Option Int) : HeadingRank :=
  if level = some 2 then HeadingRank.two
  else if level = some 3 then HeadingRank.three
  else HeadingRank.one

/-- `section.content.split("\n").filter((p) => p.trim().length > 0)`. -/
def contentParagraphs (content : String) : List String :=
  (splitLines content).filter (fun p => (jsTrim p.data).length > 0)

/-- The section loop of `createBusinessPlanFromTemplate` (lines 254-285):
for each section, in order, push one heading paragraph and then one
paragraph per non-blank content line onto the accumulated array. -/
def appendSectionBlocks (init : List DocBlock)
    (sections : List BusinessPlanSection) : List DocBlock :=
  sections.foldl
    (fun acc s =>
      (acc ++ [DocBlock.heading (headingForLevel s.level) s.title]) ++
        (contentParagraphs s.content).map DocBlock.para)
    init

/-- A character of the regex class `\w`. -/
def isWordChar (c : Char) : Bool :=
  c.isAlphanum || c == '_'

/-- Match of `/^data:image\/(\w+);base64,/` against a character list:
returns the captured format and the remainder after the matched prefix. -/
def matchDataUrl (cs : List Char) : Option (String × List Char) :=
  let mark := "data:image/".data
  if mark.isPrefixOf cs then
    let rest := cs.drop mark.length
    let fmt := rest.takeWhile isWordChar
    let after := rest.drop fmt.length
    if fmt.length > 0 && ";base64,".data.isPrefixOf after then
      some (String.mk fmt, after.drop ";base64,".data.length)
    else none
  else none

/-- `logoData.replace(/^data:image\/\w+;base64,/, "")`. -/
def stripDataUrl (s : String) : String :=
  match matchDataUrl s.data with
  | some (_, rest) => String.mk rest
  | none => s

/-- The `imageType` chosen for a base64 logo (lines 177-192): default
`"png"`; when a data-URL prefix is present, `jpeg` maps to `jpg` and
`png`/`gif`/`bmp` map to themselves, anything else stays `"png"`. -/
def imageTypeFor (logoData : String) : String :=
  match matchDataUrl logoData.data with
  | some (fmtRaw, _) =>
    let format := jsToLower fmtRaw
    if format = "jpeg" then "jpg"
    else if format = "png" || format = "gif" || format = "bmp" then format
    else "png"
  | none => "png"

/-- `path.extname(p)`: the extension (with its dot) of the last path
segment, `""` when there is none or the segment is a dot-file. -/
def extname (p : String) : String :=
  let base := (splitOnChar '/' p.data).getLastD []
  let revTail := base.reverse.takeWhile (fun c => !(c = '.'))
  if revTail.length + 2 ≤ base.length then String.mk ('.' :: revTail.reverse)
  else ""

/-- The `imageTypeMap[ext] || "png"` lookup of the `logoPath` branch
(lines 205-213). -/
def imageTypeForExt (ext : String) : String :=
  if ext = ".jpg" || ext = ".jpeg" then "jpg"
  else if ext = ".png" then "png"
  else if ext = ".gif" then "gif"
  else if ext = ".bmp" then "bmp"
  else "png"

/-- `BusinessPlanTemplateOptions`. -/
structure BusinessPlanTemplateOptions where
  title : String
  sections : List BusinessPlanSection
  logoPath : Option String := none
  logoData : Option String := none
  primaryColor : Option String := none
  secondaryColor : Option String := none

/-- The two named heading styles registered with the document (lines
295-310): heading 1 colored from `primaryColor`, heading 2 from
`secondaryColor`, each with the `#` stripped and a built-in default. -/
structure DocStyles where
  heading1Color : String
  heading2Color : String
deriving Repr, DecidableEq

/-- The serialized package: the ordered block sequence plus the registered
styles (the byte-level docx serialization of `Packer.toBuffer` is treated
as injective encoding of this structure). -/
structure DocxPackage where
  blocks : List DocBlock
  styles : DocStyles
deriving Repr, DecidableEq

/-- The logo-resolution steps of `createBusinessPlanFromTemplate` (lines
176-217): the `logoData` branch (data-URL stripping plus fallible base64
decode) and the dead-in-all-call-sites `logoPath` branch.
`bufferFromBase64` models `Buffer.from(base64Data, "base64")` together
with the surrounding `try`/`catch` (a failure yields `none`, and the
source then continues without a logo); `readFile` models the
`fs.existsSync`/`fs.readFileSync` pair.  The inner `try`/`catch` around
the `ImageRun` push degrades the same way and is subsumed by a
`bufferFromBase64` failure. -/
def resolveImage (logoData logoPath : Option String)
    (bufferFromBase64 : String → Option (List Nat))
    (readFile : String → Option (List Nat)) : Option (String × List Nat) :=
  if jsTruthyStr logoData then
    let s := logoData.getD ""
    match bufferFromBase64 (stripDataUrl s) with
    | some buf => some (imageTypeFor s, buf)
    | none => none
  else if jsTruthyStr logoPath then
    let p := logoPath.getD ""
    match readFile p with
    | some buf => some (imageTypeForExt (jsToLower (extname p)), buf)
    | none => none
  else none

/-- `createBusinessPlanFromTemplate` (lines 158-315): optional image
block, title block, section blocks, and the two registered heading
styles. -/
def createBusinessPlanFromTemplate (options : BusinessPlanTemplateOptions)
    (bufferFromBase64 : String → Option (List Nat))
    (readFile : String → Option (List Nat)) : DocxPackage :=
  let logoBlocks : List DocBlock :=
    match resolveImage options.logoData options.logoPath bufferFromBase64 readFile with
    | some (t, buf) => [DocBlock.image t buf]
    | none => []
  let blocks :=
    appendSectionBlocks (logoBlocks ++ [DocBlock.titleBlock options.title])
      options.sections
  { blocks := blocks
    styles :=
      { heading1Color := jsOrStr (options.primaryColor.map replaceFirstHash) "1E40AF"
        heading2Color := jsOrStr (options.secondaryColor.map replaceFirstHash) "3B82F6" } }

/-- Kind test: is a block the embedded logo image? -/
def isImageBlock : DocBlock → Bool
  | DocBlock.image _ _ => true
  | _ => false

/-- Kind test: is a block the title paragraph? -/
def isTitleBlock : DocBlock → Bool
  | DocBlock.titleBlock _ => true
  | _ => false

/-- Kind test: is a block a section heading? -/
def isHeadingBlock : DocBlock → Bool
  | DocBlock.heading _ _ => true
  | _ => false

/-- Kind test: is a block a plain content paragraph? -/
def isParaBlock : DocBlock → Bool
  | DocBlock.para _ => true
  | _ => false

/-- Number of embedded image blocks of a block sequence. -/
def countImageBlocks (blocks : List DocBlock) : Nat :=
  (blocks.filter isImageBlock).length

/-! ### Artifact store and request execution -/

/-- The fixed DOCX MIME constant. -/
def docxContentType : String :=
  "application/vnd.openxmlformats-officedocument.wordprocessingml.document"

/-- A persisted `GeneratedFile` record (`models/generated-file`): the model
`_id` is a natural number allocated sequentially. -/
structure GeneratedFileRec where
  id : Nat
  filename : String
  contentType : String
  data : DocxPackage
deriving Repr, DecidableEq

/-- The storage-touching steps of one generation request, in the order the
source awaits them; an operation appears in a run's trace only when it
completed. -/
inductive StoreOp where
  | readOwnerRecord
  | encodeDocument
  | persistArtifact
  | appendHistory
deriving Repr, DecidableEq

/-- Outcome of the client-path generation tool. -/
inductive ToolOutcome where
  | ok (fileId : Nat) (filename : String) (version : Nat)
  | failed
deriving Repr, DecidableEq

/-- Outcome of the user-path generation tool (no versioning there). -/
inductive RouteOutcome where
  | ok (fileId : Nat) (filename : String)
  | failed
deriving Repr, DecidableEq

namespace BusinessAgent

/-- Post-state and result of one client-path generation request. -/
structure GenResult where
  client : Client
  files : List GeneratedFileRec
  pkg : DocxPackage
  trace : List StoreOp
  outcome : ToolOutcome
deriving Repr, DecidableEq

/-- The `createBusinessPlanDocx` tool of `part_014` (lines 312-417), after
the client record has been read (`Client.findOne`, the first store access
of the request).  `defaultLogoRead` models the `try` around
`fs.readFileSync(path.join(process.cwd(), "public", "logo_aire.png"))`
(`none` when the bundled asset is unreadable); `persistOk` models success
of `GeneratedFile.create`, `appendOk` success of the `Client.updateOne`
`$push`; a `false` flag throws into the tool's outer `catch`, which
returns the generic failure.  Steps in source order: version computation,
branding setup, buffer generation, artifact persistence, history append. -/
def createBusinessPlanDocx (client : Client) (files : List GeneratedFileRec)
    (title : String) (sections : List BusinessPlanSection)
    (defaultLogoRead : Option String)
    (bufferFromBase64 : String → Option (List Nat))
    (persistOk appendOk : Bool) : GenResult :=
  -- 2. Determine Version
  let nextV := nextVersion client.documents title
  let vTitle := versionedTitle title nextV
  let fname := finalFilename title nextV
  -- 3. Branding Setup: `client.branding?.logo || null`, then the default
  -- asset read only when that is falsy
  let finalLogoData : Option String :=
    match truthyOrNone client.branding.logo with
    | some l => some l
    | none => defaultLogoRead
  -- 4. Generate Buffer
  let buffer := createBusinessPlanFromTemplate
    { title := vTitle
      sections := sections
      logoData := truthyOrNone finalLogoData
      primaryColor := client.branding.primaryColor
      secondaryColor := client.branding.secondaryColor }
    bufferFromBase64 (fun _ => none)
  -- 5. Save to GeneratedFile  6. Link to Client History
  if persistOk then
    let newFile : GeneratedFileRec :=
      { id := files.length, filename := fname
        contentType := docxContentType, data := buffer }
    if appendOk then
      let entry : ClientDocument :=
        { name := vTitle, content := some "Generated Business Plan"
          type := some "docx", fileId := some newFile.id
          version := some nextV }
      { client := { client with documents := client.documents ++ [entry] }
        files := files ++ [newFile]
        pkg := buffer
        trace := [StoreOp.readOwnerRecord, StoreOp.encodeDocument,
          StoreOp.persistArtifact, StoreOp.appendHistory]
        outcome := ToolOutcome.ok newFile.id fname nextV }
    else
      { client := client
        files := files ++ [newFile]
        pkg := buffer
        trace := [StoreOp.readOwnerRecord, StoreOp.encodeDocument,
          StoreOp.persistArtifact]
        outcome := ToolOutcome.failed }
  else
    { client := client
      files := files
      pkg := buffer
      trace := [StoreOp.readOwnerRecord, StoreOp.encodeDocument]
      outcome := ToolOutcome.failed }

/-- The `saveClientBranding` tool of `part_014` (lines 213-244): a `$set`
built from the truthy-supplied fields only. -/
def saveClientBranding (client : Client)
    (logo primaryColor secondaryColor font : Option String) : Client :=
  let b := client.branding
  { client with
      branding :=
        { logo := if jsTruthyStr logo then logo else b.logo
          primaryColor :=
            if jsTruthyStr primaryColor then primaryColor else b.primaryColor
          secondaryColor :=
            if jsTruthyStr secondaryColor then secondaryColor else b.secondaryColor
          font := if jsTruthyStr font then font else b.font } }

/-- The `saveClientDocument` tool of `part_014` (lines 246-280): `$push` of
`{name, content, type: type || "text", uploadedAt}` — no `version` field. -/
def saveClientDocument (client : Client) (name content : String)
    (type : Option String) : Client :=
  { client with
      documents := client.documents ++
        [{ name := name, content := some content
           type := some (jsOrStr type "text")
           fileId := none, version := none }] }

/-- `n` serialized generation requests for the same client and title, each
with successful persistence; the third component collects the reported
version numbers in request order. -/
def serializedRun (client : Client) (files : List GeneratedFileRec)
    (title : String) (sections : List BusinessPlanSection)
    (defaultLogoRead : Option String)
    (bufferFromBase64 : String → Option (List Nat)) :
    Nat → Client × List GeneratedFileRec × List Nat
  | 0 => (client, files, [])
  | n + 1 =>
    let prev := serializedRun client files title sections defaultLogoRead
      bufferFromBase64 n
    let r := createBusinessPlanDocx prev.1 prev.2.1 title sections
      defaultLogoRead bufferFromBase64 true true
    (r.client, r.files,
      prev.2.2 ++
        match r.outcome with
        | ToolOutcome.ok _ _ v => [v]
        | ToolOutcome.failed => [])

end BusinessAgent

namespace UserAgent

/-- Post-state and result of one user-path generation request. -/
structure RouteResult where
  files : List GeneratedFileRec
  pkg : DocxPackage
  trace : List StoreOp
  outcome : RouteOutcome
deriving Repr, DecidableEq

/-- The `saveBranding` tool of `route.ts` (lines 168-233): `$set` of the
truthy-supplied fields only. -/
def saveBranding (user : UserRecord)
    (logo primaryColor secondaryColor : Option String) : UserRecord :=
  { logo := if jsTruthyStr logo then logo else user.logo
    primaryColor :=
      if jsTruthyStr primaryColor then primaryColor else user.primaryColor
    secondaryColor :=
      if jsTruthyStr secondaryColor then secondaryColor else user.secondaryColor }

/-- The `createBusinessPlanDocx` tool of `route.ts` (lines 234-342).
`user` is the result of the `User.findById` read performed at the start of
the tool (`none` when the session has no user record); `primaryColor` and
`secondaryColor` are the explicit overrides of the tool input (there is no
explicit logo channel in this interface).  `defaultLogoRead` and
`persistOk` are as in the client path; the user path appends no history. -/
def createBusinessPlanDocx (user : Option UserRecord)
    (files : List GeneratedFileRec)
    (title : String) (sections : List BusinessPlanSection)
    (primaryColor secondaryColor : Option String)
    (defaultLogoRead : Option String)
    (bufferFromBase64 : String → Option (List Nat))
    (persistOk : Bool) : RouteResult :=
  let storedLogo := match user with | some u => u.logo | none => none
  let storedPrimaryColor := match user with | some u => u.primaryColor | none => none
  let storedSecondaryColor := match user with | some u => u.secondaryColor | none => none
  -- `primaryColor || storedPrimaryColor`, per field
  let finalPrimaryColor := jsOrOpt primaryColor storedPrimaryColor
  let finalSecondaryColor := jsOrOpt secondaryColor storedSecondaryColor
  -- `let finalLogoData = storedLogo; if (!finalLogoData) { try default }`
  let finalLogoData : Option String :=
    match truthyOrNone storedLogo with
    | some l => some l
    | none => defaultLogoRead
  let buffer := createBusinessPlanFromTemplate
    { title := title
      sections := sections
      logoData := truthyOrNone finalLogoData
      primaryColor := truthyOrNone finalPrimaryColor
      secondaryColor := truthyOrNone finalSecondaryColor }
    bufferFromBase64 (fun _ => none)
  if persistOk then
    let fname := jsSanitize title ++ ".docx"
    let newFile : GeneratedFileRec :=
      { id := files.length, filename := fname
        contentType := docxContentType, data := buffer }
    { files := files ++ [newFile]
      pkg := buffer
      trace := [StoreOp.readOwnerRecord, StoreOp.encodeDocument,
        StoreOp.persistArtifact]
      outcome := RouteOutcome.ok newFile.id fname }
  else
    { files := files
      pkg := buffer
      trace := [StoreOp.readOwnerRecord, StoreOp.encodeDocument]
      outcome := RouteOutcome.failed }

end UserAgent

/-! ### Derived shapes used by the theorems -/

/-- The per-section block shape stated by the spec (§4.2): one heading at
the rank derived from `level` followed by one paragraph per non-blank
content line.  This is the spec-side description, to be compared with the
source's accumulating loop `appendSectionBlocks`. -/
def sectionBlocksSpec (s : BusinessPlanSection) : List DocBlock :=
  DocBlock.heading (headingForLevel s.level) s.title ::
    (contentParagraphs s.content).map DocBlock.para

/-- A hex digit as accepted by a 6-hex-digit color value. -/
def isHexDigitChar (c : Char) : Bool :=
  c.isDigit || ('a' ≤ c && c ≤ 'f') || ('A' ≤ c && c ≤ 'F')

/-- A well-formed color value: `#` followed by six hex digits (the form
the spec's data-model invariant normalizes colors to). -/
def isHexColor (s : String) : Bool :=
  match s.data with
  | c :: rest => c = '#' && rest.length = 6 && rest.all isHexDigitChar
  | [] => false

/-- The buffer generated by one client-path request: the intermediate
`buffer` value of `BusinessAgent.createBusinessPlanDocx`, named so that
theorems can refer to it. -/
def generatedPackage (client : Client) (title : String)
    (sections : List BusinessPlanSection) (dl : Option String)
    (dec : String → Option (List Nat)) : DocxPackage :=
  createBusinessPlanFromTemplate
    { title := versionedTitle title (nextVersion client.documents title)
      sections := sections
      logoData := truthyOrNone (match truthyOrNone client.branding.logo with
        | some l => some l
        | none => dl)
      primaryColor := client.branding.primaryColor
      secondaryColor := client.branding.secondaryColor }
    dec (fun _ => none)

/-- The history entry the `i`-th serialized generation appends (`baseId`
is the number of stored files before the first of the runs). -/
def genHistoryEntry (title : String) (baseId : Nat) (i : Nat) :
    ClientDocument :=
  { name := versionedTitle title i, content := some "Generated Business Plan",
    type := some "docx", fileId := some (baseId + (i - 1)), version := some i }

/-! ### Helper lemmas -/

theorem isPrefixOf_append_self (l r : List Char) :
    l.isPrefixOf (l ++ r) = true := by
  induction l with
  | nil => simp [List.isPrefixOf]
  | cons a as ih => simp [List.isPrefixOf, ih]

theorem jsStartsWith_append (title suffix : String) :
    jsStartsWith (title ++ suffix) title = true := by
  rw [jsStartsWith, String.data_append]
  exact isPrefixOf_append_self _ _

theorem jsStartsWith_iff (s pre : String) :
    jsStartsWith s pre = true ↔ pre.data <+: s.data := by
  rw [jsStartsWith]
  exact List.isPrefixOf_iff_prefix

theorem foldl_max_range (n : Nat) : (List.range' 1 n).foldl max 0 = n := by
  induction n with
  | zero => rfl
  | succ n ih =>
    rw [List.range'_concat, List.foldl_append, ih]
    show max n (1 + 1 * n) = n + 1
    omega

theorem foldl_max_eq (l : List Nat) (h : l ≠ []) :
    l.foldl max 0 = l.max?.getD 0 := by
  cases l with
  | nil => simp at h
  | cons a as => simp [List.max?, List.foldl_cons, Nat.zero_max]

theorem char_toNat_ofNat (n : Nat) (h : n.isValidChar) :
    (Char.ofNat n).toNat = n := by
  have hlt : n < 2 ^ 32 := by rcases h with h | ⟨_, h⟩ <;> omega
  simp [Char.ofNat, h, Char.ofNatAux, Char.toNat, UInt32.toNat,
    BitVec.toNat_ofNat, Nat.mod_eq_of_lt hlt]

theorem toLower_eq_self (c : Char) (h : ¬(65 ≤ c.toNat ∧ c.toNat ≤ 90)) :
    Char.toLower c = c := by
  simp only [Char.toLower]
  rw [if_neg h]

theorem isAlphanum_of_lower (c : Char) (h1 : 97 ≤ c.toNat)
    (h2 : c.toNat ≤ 122) : c.isAlphanum = true := by
  simp [Char.isAlphanum, Char.isAlpha, Char.isLower]
  exact Or.inl (Or.inr ⟨h1, h2⟩)

theorem sanitizeLower_idem (c : Char) :
    Char.toLower (sanitizeChar (Char.toLower (sanitizeChar c))) =
      Char.toLower (sanitizeChar c) := by
  by_cases halpha : c.isAlphanum = true
  · have hs : sanitizeChar c = c := by simp [sanitizeChar, halpha]
    rw [hs]
    by_cases hup : 65 ≤ c.toNat ∧ c.toNat ≤ 90
    · have hval : (c.toNat + 32).isValidChar := Or.inl (by omega)
      have htn : (Char.ofNat (c.toNat + 32)).toNat = c.toNat + 32 :=
        char_toNat_ofNat _ hval
      have hdl : Char.toLower c = Char.ofNat (c.toNat + 32) := by
        simp only [Char.toLower]
        rw [if_pos hup]
      have hdalpha : (Char.ofNat (c.toNat + 32)).isAlphanum = true :=
        isAlphanum_of_lower _ (by omega) (by omega)
      have hs2 : sanitizeChar (Char.ofNat (c.toNat + 32)) =
          Char.ofNat (c.toNat + 32) := by
        simp [sanitizeChar, hdalpha]
      rw [hdl, hs2]
      exact toLower_eq_self _ (by omega)
    · have h1 : Char.toLower c = c := toLower_eq_self c hup
      rw [h1, hs, h1]
  · have hs : sanitizeChar c = '_' := by simp [sanitizeChar, halpha]
    rw [hs]
    decide

theorem jsSanitize_idem_data (l : List Char) :
    ((((l.map sanitizeChar).map Char.toLower).map sanitizeChar).map
      Char.toLower) = (l.map sanitizeChar).map Char.toLower := by
  induction l with
  | nil => rfl
  | cons a as ih =>
    simp only [List.map_cons, List.cons.injEq]
    exact ⟨sanitizeLower_idem a, ih⟩

theorem truthyOrNone_of_false {v : Option String}
    (h : jsTruthyStr v = false) : truthyOrNone v = none := by
  cases v with
  | none => rfl
  | some s =>
    by_cases hs : s = ""
    · subst hs; simp [truthyOrNone]
    · simp [jsTruthyStr, hs] at h

theorem mergeField_keep (stored : Option String) :
    (if jsTruthyStr (none : Option String) then (none : Option String)
      else stored) = stored := by
  simp [jsTruthyStr]

theorem mergeField_isSome (upd stored : Option String)
    (h : stored.isSome = true) :
    (if jsTruthyStr upd then upd else stored).isSome = true := by
  cases upd with
  | none => simpa [jsTruthyStr]
  | some s => by_cases hs : s = "" <;> simp [jsTruthyStr, hs, h]

theorem appendSectionBlocks_eq (init : List DocBlock)
    (sections : List BusinessPlanSection) :
    appendSectionBlocks init sections =
      init ++ sections.flatMap sectionBlocksSpec := by
  induction sections generalizing init with
  | nil => simp [appendSectionBlocks]
  | cons s ss ih =>
    have step : appendSectionBlocks init (s :: ss) =
        appendSectionBlocks
          ((init ++ [DocBlock.heading (headingForLevel s.level) s.title]) ++
            (contentParagraphs s.content).map DocBlock.para) ss := rfl
    rw [step, ih]
    simp [sectionBlocksSpec, List.append_assoc]

theorem isHexColor_ne_empty {p : String} (h : isHexColor p = true) :
    p ≠ "" := by
  intro hp
  subst hp
  simp [isHexColor] at h

theorem isHexColor_strip_ne_empty {p : String} (h : isHexColor p = true) :
    replaceFirstHash p ≠ "" := by
  intro hstrip
  rcases hd : p.data with _ | ⟨c, rest⟩
  · simp [isHexColor, hd] at h
  · simp [isHexColor, hd] at h
    obtain ⟨⟨hc, hlen⟩, _⟩ := h
    have hrw : replaceFirstHash p = String.mk rest := by
      simp [replaceFirstHash, hd, removeFirstHash, hc]
    rw [hrw] at hstrip
    have hnil : rest = [] := congrArg String.data hstrip
    simp [hnil] at hlen

theorem countImageBlocks_append (l r : List DocBlock) :
    countImageBlocks (l ++ r) = countImageBlocks l + countImageBlocks r := by
  simp [countImageBlocks, List.filter_append]

theorem countImageBlocks_sections (sections : List BusinessPlanSection) :
    countImageBlocks (sections.flatMap sectionBlocksSpec) = 0 := by
  simp only [countImageBlocks, List.length_eq_zero, List.filter_eq_nil_iff]
  intro b hb
  rw [List.mem_flatMap] at hb
  obtain ⟨s, _, hbs⟩ := hb
  simp only [sectionBlocksSpec, List.mem_cons, List.mem_map] at hbs
  rcases hbs with rfl | ⟨p, _, rfl⟩ <;> simp [isImageBlock]

/-- Closed form of a fully successful client-path request. -/
theorem createBusinessPlanDocx_ok_eq (client : Client)
    (files : List GeneratedFileRec) (title : String)
    (sections : List BusinessPlanSection) (dl : Option String)
    (dec : String → Option (List Nat)) :
    BusinessAgent.createBusinessPlanDocx client files title sections dl dec
      true true =
      { client := { client with documents := client.documents ++
          [{ name := versionedTitle title (nextVersion client.documents title)
             content := some "Generated Business Plan"
             type := some "docx"
             fileId := some files.length
             version := some (nextVersion client.documents title) }] }
        files := files ++
          [{ id := files.length
             filename := finalFilename title (nextVersion client.documents title)
             contentType := docxContentType
             data := generatedPackage client title sections dl dec }]
        pkg := generatedPackage client title sections dl dec
        trace := [StoreOp.readOwnerRecord, StoreOp.encodeDocument,
          StoreOp.persistArtifact, StoreOp.appendHistory]
        outcome := ToolOutcome.ok files.length
          (finalFilename title (nextVersion client.documents title))
          (nextVersion client.documents title) } := rfl

/-- Closed form of a request whose history append fails after persistence. -/
theorem createBusinessPlanDocx_appendFail_eq (client : Client)
    (files : List GeneratedFileRec) (title : String)
    (sections : List BusinessPlanSection) (dl : Option String)
    (dec : String → Option (List Nat)) :
    BusinessAgent.createBusinessPlanDocx client files title sections dl dec
      true false =
      { client := client
        files := files ++
          [{ id := files.length
             filename := finalFilename title (nextVersion client.documents title)
             contentType := docxContentType
             data := generatedPackage client title sections dl dec }]
        pkg := generatedPackage client title sections dl dec
        trace := [StoreOp.readOwnerRecord, StoreOp.encodeDocument,
          StoreOp.persistArtifact]
        outcome := ToolOutcome.failed } := rfl

/-- Closed form of a request whose blob persistence fails. -/
theorem createBusinessPlanDocx_persistFail_eq (client : Client)
    (files : List GeneratedFileRec) (title : String)
    (sections : List BusinessPlanSection) (dl : Option String)
    (dec : String → Option (List Nat)) (appendOk : Bool) :
    BusinessAgent.createBusinessPlanDocx client files title sections dl dec
      false appendOk =
      { client := client
        files := files
        pkg := generatedPackage client title sections dl dec
        trace := [StoreOp.readOwnerRecord, StoreOp.encodeDocument]
        outcome := ToolOutcome.failed } := rfl

theorem jsStartsWith_versionedTitle (title : String) (i : Nat) :
    jsStartsWith (versionedTitle title i) title = true := by
  have h : versionedTitle title i = title ++ (" (v" ++ toString i ++ ")") := by
    simp [versionedTitle, String.append_assoc]
  rw [h, jsStartsWith_append]

theorem nextVersion_gens (title : String) (d0 : List ClientDocument)
    (hno : ∀ d ∈ d0, jsStartsWith d.name title = false) (b n : Nat) :
    nextVersion (d0 ++ (List.range' 1 n).map (genHistoryEntry title b))
      title = n + 1 := by
  have hf1 : d0.filter (fun d => jsStartsWith d.name title) = [] :=
    List.filter_eq_nil_iff.mpr (fun d hd => by simp [hno d hd])
  have hf2 : ((List.range' 1 n).map (genHistoryEntry title b)).filter
      (fun d => jsStartsWith d.name title) =
      (List.range' 1 n).map (genHistoryEntry title b) :=
    List.filter_eq_self.mpr (by
      intro d hd
      rw [List.mem_map] at hd
      obtain ⟨i, _, rfl⟩ := hd
      simp [genHistoryEntry, jsStartsWith_versionedTitle])
  simp only [nextVersion, sameTitleDocs, List.filter_append, hf1, hf2,
    List.nil_append]
  cases n with
  | zero => rfl
  | succ m =>
    have hlen :
        0 < ((List.range' 1 (m + 1)).map (genHistoryEntry title b)).length := by
      simp
    rw [if_pos hlen]
    have hmap : ((List.range' 1 (m + 1)).map (genHistoryEntry title b)).map
        (fun d => jsOrNat d.version 1) = List.range' 1 (m + 1) := by
      rw [List.map_map]
      have hcongr : ∀ i ∈ List.range' 1 (m + 1),
          ((fun d => jsOrNat d.version 1) ∘ genHistoryEntry title b) i =
            id i := by
        intro i hi
        have h1 : 1 ≤ i := (List.mem_range'_1.mp hi).1
        have h0 : i ≠ 0 := by omega
        simp [genHistoryEntry, jsOrNat, h0]
      rw [List.map_congr_left hcongr, List.map_id]
    rw [hmap, foldl_max_range]

theorem serializedRun_spec (client : Client) (files : List GeneratedFileRec)
    (title : String) (sections : List BusinessPlanSection) (dl : Option String)
    (dec : String → Option (List Nat))
    (hno : ∀ d ∈ client.documents, jsStartsWith d.name title = false) :
    ∀ n,
      (BusinessAgent.serializedRun client files title sections dl dec
        n).1.documents =
        client.documents ++
          (List.range' 1 n).map (genHistoryEntry title files.length) ∧
      (BusinessAgent.serializedRun client files title sections dl dec
        n).1.branding = client.branding ∧
      (BusinessAgent.serializedRun client files title sections dl dec
        n).2.1.length = files.length + n ∧
      (BusinessAgent.serializedRun client files title sections dl dec n).2.2 =
        List.range' 1 n := by
  intro n
  induction n with
  | zero => exact ⟨by simp [BusinessAgent.serializedRun], rfl,
      by simp [BusinessAgent.serializedRun], rfl⟩
  | succ m ih =>
    obtain ⟨hdocs, hbrand, hflen, hvers⟩ := ih
    have hstep : BusinessAgent.serializedRun client files title sections dl dec
        (m + 1) =
        (let r := BusinessAgent.createBusinessPlanDocx
          (BusinessAgent.serializedRun client files title sections dl dec m).1
          (BusinessAgent.serializedRun client files title sections dl dec m).2.1
          title sections dl dec true true
        (r.client, r.files,
          (BusinessAgent.serializedRun client files title sections dl dec
            m).2.2 ++
            match r.outcome with
            | ToolOutcome.ok _ _ v => [v]
            | ToolOutcome.failed => [])) := rfl
    have hver : nextVersion
        (BusinessAgent.serializedRun client files title sections dl dec
          m).1.documents title = m + 1 := by
      rw [hdocs]
      exact nextVersion_gens title client.documents hno files.length m
    have hrange : List.range' 1 (m + 1) = List.range' 1 m ++ [m + 1] := by
      have h := @List.range'_concat 1 1 m
      simpa [Nat.add_comm] using h
    rw [hstep, createBusinessPlanDocx_ok_eq]
    refine ⟨?_, ?_, ?_, ?_⟩
    · show (BusinessAgent.serializedRun client files title sections dl dec
          m).1.documents ++ _ = _
      rw [hdocs, hflen,
        nextVersion_gens title client.documents hno files.length m, hrange,
        List.map_append, List.append_assoc]
      have hentry : (List.range' 1 m).map (genHistoryEntry title files.length) ++
          [genHistoryEntry title files.length (m + 1)] =
          (List.range' 1 m).map (genHistoryEntry title files.length) ++
            [{ name := versionedTitle title (m + 1),
               content := some "Generated Business Plan", type := some "docx",
               fileId := some (files.length + m), version := some (m + 1) }] := by
        simp [genHistoryEntry]
      simp [hentry, genHistoryEntry]
    · exact hbrand
    · show ((BusinessAgent.serializedRun client files title sections dl dec
          m).2.1 ++ _).length = _
      simp [hflen]
      omega
    · show (BusinessAgent.serializedRun client files title sections dl dec
          m).2.2 ++ _ = _
      rw [hvers, hver, hrange]

/-! ### Claim theorems -/

/-- C1: the version namer selects exactly the history entries whose `name`
has the raw requested title as a plain prefix; it returns version `1` when
nothing matches and otherwise `1 +` the maximum of the matched versions
(a missing version counting as `1`); the display title is
`title ++ " (v" ++ version ++ ")"` and the filename is the sanitized display
title with `".docx"` appended; consequently `n` serialized generations for
the same client and title report versions `1, 2, ..., n` in request order
and append exactly those history entries. -/
theorem claim_version_namer (title : String) (client : Client)
    (files : List GeneratedFileRec) (sections : List BusinessPlanSection)
    (dl : Option String) (dec : String → Option (List Nat))
    (hno : ∀ d ∈ client.documents, jsStartsWith d.name title = false) :
    (∀ (docs : List ClientDocument) (d : ClientDocument),
      d ∈ sameTitleDocs docs title ↔ d ∈ docs ∧ title.data <+: d.name.data) ∧
    (∀ docs, sameTitleDocs docs title = [] → nextVersion docs title = 1) ∧
    (∀ docs, sameTitleDocs docs title ≠ [] →
      nextVersion docs title =
        ((sameTitleDocs docs title).map
          (fun d => jsOrNat d.version 1)).max?.getD 0 + 1) ∧
    (∀ v, versionedTitle title v = title ++ " (v" ++ toString v ++ ")") ∧
    (∀ v, finalFilename title v = jsSanitize (versionedTitle title v) ++ ".docx") ∧
    (∀ n, (BusinessAgent.serializedRun client files title sections dl dec
      n).2.2 = List.range' 1 n) ∧
    (∀ n, (BusinessAgent.serializedRun client files title sections dl dec
      n).1.documents =
      client.documents ++
        (List.range' 1 n).map (genHistoryEntry title files.length)) := by
  refine ⟨?_, ?_, ?_, fun v => rfl, fun v => rfl, ?_, ?_⟩
  · intro docs d
    rw [sameTitleDocs, List.mem_filter, jsStartsWith_iff]
  · intro docs h
    simp only [nextVersion, sameTitleDocs] at *
    rw [h]
    rfl
  · intro docs h
    have hlen : 0 < (sameTitleDocs docs title).length :=
      List.length_pos.mpr h
    have hmapne : (sameTitleDocs docs title).map
        (fun d => jsOrNat d.version 1) ≠ [] := by
      simp [List.map_eq_nil_iff, h]
    simp only [nextVersion]
    rw [if_pos hlen, foldl_max_eq _ hmapne]
  · exact fun n =>
      (serializedRun_spec client files title sections dl dec hno n).2.2.2
  · exact fun n =>
      (serializedRun_spec client files title sections dl dec hno n).1

/-- Witness for C1: with no prior history, three serialized runs for title
`"Plan"` report versions `[1, 2, 3]`, and the derived title and filename
have the stated shapes. -/
theorem claim_version_namer_witness :
    (BusinessAgent.serializedRun { branding := {}, documents := [] } [] "Plan"
      [] none (fun _ => none) 3).2.2 = [1, 2, 3] ∧
    nextVersion [] "Plan" = 1 ∧
    versionedTitle "Plan" 2 = "Plan (v2)" ∧
    finalFilename "Plan" 2 = "plan__v2_.docx" := by
  have h := claim_version_namer "Plan" { branding := {}, documents := [] } []
    [] none (fun _ => none) (by simp)
  refine ⟨?_, ?_, ?_, ?_⟩
  · have h6 := h.2.2.2.2.2.1 3
    rw [h6]
    decide
  · exact h.2.1 [] rfl
  · rw [h.2.2.2.1 2]
    decide
  · rw [h.2.2.2.2.1 2]
    decide

/-- C2: the assembled block sequence is the initial blocks followed, per
section in input order, by exactly one heading block and one paragraph
block per non-blank content line; the heading rank is second rank exactly
for `level = 2`, third rank exactly for `level = 3`, and top rank for
everything else (including `1`, missing, `0`, `4`); blank-only or empty
content yields zero paragraph blocks and is not an error. -/
theorem claim_section_assembler :
    (∀ (init : List DocBlock) (sections : List BusinessPlanSection),
      appendSectionBlocks init sections =
        init ++ sections.flatMap sectionBlocksSpec) ∧
    (∀ (options : BusinessPlanTemplateOptions)
        (bufferFromBase64 readFile : String → Option (List Nat)), ∃ pre,
      (createBusinessPlanFromTemplate options bufferFromBase64 readFile).blocks =
        pre ++ DocBlock.titleBlock options.title ::
          options.sections.flatMap sectionBlocksSpec ∧
      (∀ b ∈ pre, isImageBlock b = true)) ∧
    (∀ level, (headingForLevel level = HeadingRank.two ↔ level = some 2) ∧
      (headingForLevel level = HeadingRank.three ↔ level = some 3) ∧
      (level ≠ some 2 → level ≠ some 3 →
        headingForLevel level = HeadingRank.one)) ∧
    (∀ content, (∀ p ∈ splitLines content, (jsTrim p.data).length = 0) →
      contentParagraphs content = []) ∧
    contentParagraphs "" = [] := by
  refine ⟨appendSectionBlocks_eq, ?_, ?_, ?_, by decide⟩
  · intro options bufferFromBase64 readFile
    cases hres : resolveImage options.logoData options.logoPath bufferFromBase64
      readFile with
    | none =>
      refine ⟨[], ?_, by simp⟩
      simp [createBusinessPlanFromTemplate, hres, appendSectionBlocks_eq]
    | some tb =>
      obtain ⟨t, buf⟩ := tb
      refine ⟨[DocBlock.image t buf], ?_, by simp [isImageBlock]⟩
      simp [createBusinessPlanFromTemplate, hres, appendSectionBlocks_eq]
  · intro level
    by_cases h2 : level = some 2
    · simp [headingForLevel, h2]
    · by_cases h3 : level = some 3 <;> simp [headingForLevel, h2, h3]
  · intro content hall
    rw [contentParagraphs, List.filter_eq_nil_iff]
    intro p hp
    simp [hall p hp]

/-- Witness for C2: a concrete section at level 2 with one blank line
among its content lines, a non-2/3 level mapping to top rank, and a
blank-only content yielding no paragraphs. -/
theorem claim_section_assembler_witness :
    appendSectionBlocks [DocBlock.titleBlock "T"]
      [{ title := "S", content := "a\n\nb", level := some 2 }] =
      [DocBlock.titleBlock "T", DocBlock.heading HeadingRank.two "S",
        DocBlock.para "a", DocBlock.para "b"] ∧
    headingForLevel (some 4) = HeadingRank.one ∧
    contentParagraphs " \n \t\n" = [] := by
  refine ⟨?_, ?_, ?_⟩
  · rw [claim_section_assembler.1]
    decide
  · exact (claim_section_assembler.2.2.1 (some 4)).2.2 (by decide) (by decide)
  · exact claim_section_assembler.2.2.2.1 " \n \t\n" (by decide)

/-- C3: in the user-path generation tool, each branding field resolves
independently as explicit override (when a well-formed value is supplied)
over stored profile value over built-in default (`#1E40AF` / `#3B82F6`,
applied hash-stripped by the encoder, and the bundled default logo asset);
the tool input has no explicit logo channel, so for the logo the chain is
stored value over default asset; the logo conclusions hold for all
explicit color overrides and the color conclusions for all logo inputs,
which is the claimed per-field independence, and no case raises an
error. -/
theorem claim_branding_resolution (user : UserRecord)
    (files : List GeneratedFileRec) (title : String)
    (sections : List BusinessPlanSection) (ep es : Option String)
    (dl : Option String) (dec : String → Option (List Nat)) (persistOk : Bool) :
    (∀ p, ep = some p → isHexColor p = true →
      (UserAgent.createBusinessPlanDocx (some user) files title sections ep es dl
        dec persistOk).pkg.styles.heading1Color = replaceFirstHash p) ∧
    (jsTruthyStr ep = false → ∀ p, user.primaryColor = some p →
      isHexColor p = true →
      (UserAgent.createBusinessPlanDocx (some user) files title sections ep es dl
        dec persistOk).pkg.styles.heading1Color = replaceFirstHash p) ∧
    (jsTruthyStr ep = false → jsTruthyStr user.primaryColor = false →
      (UserAgent.createBusinessPlanDocx (some user) files title sections ep es dl
        dec persistOk).pkg.styles.heading1Color = "1E40AF") ∧
    (∀ p, es = some p → isHexColor p = true →
      (UserAgent.createBusinessPlanDocx (some user) files title sections ep es dl
        dec persistOk).pkg.styles.heading2Color = replaceFirstHash p) ∧
    (jsTruthyStr es = false → ∀ p, user.secondaryColor = some p →
      isHexColor p = true →
      (UserAgent.createBusinessPlanDocx (some user) files title sections ep es dl
        dec persistOk).pkg.styles.heading2Color = replaceFirstHash p) ∧
    (jsTruthyStr es = false → jsTruthyStr user.secondaryColor = false →
      (UserAgent.createBusinessPlanDocx (some user) files title sections ep es dl
        dec persistOk).pkg.styles.heading2Color = "3B82F6") ∧
    (∀ l buf, user.logo = some l → l ≠ "" → dec (stripDataUrl l) = some buf →
      (UserAgent.createBusinessPlanDocx (some user) files title sections ep es dl
        dec persistOk).pkg.blocks.head? =
        some (DocBlock.image (imageTypeFor l) buf)) ∧
    (∀ l buf, jsTruthyStr user.logo = false → dl = some l → l ≠ "" →
      dec (stripDataUrl l) = some buf →
      (UserAgent.createBusinessPlanDocx (some user) files title sections ep es dl
        dec persistOk).pkg.blocks.head? =
        some (DocBlock.image (imageTypeFor l) buf)) ∧
    (jsTruthyStr user.logo = false → dl = none →
      countImageBlocks
        (UserAgent.createBusinessPlanDocx (some user) files title sections ep es
          dl dec persistOk).pkg.blocks = 0) := by
  refine ⟨?_, ?_, ?_, ?_, ?_, ?_, ?_, ?_, ?_⟩
  · intro p hp hhex
    subst hp
    have hne := isHexColor_ne_empty hhex
    cases persistOk <;>
      simp [UserAgent.createBusinessPlanDocx, createBusinessPlanFromTemplate,
        jsOrOpt, truthyOrNone, hne, jsOrStr, isHexColor_strip_ne_empty hhex]
  · intro hep p hp hhex
    have hne := isHexColor_ne_empty hhex
    have hepn : jsOrOpt ep user.primaryColor = some p := by
      cases ep with
      | none => simp [jsOrOpt, hp]
      | some e =>
        by_cases he : e = ""
        · simp [jsOrOpt, he, hp]
        · simp [jsTruthyStr, he] at hep
    cases persistOk <;>
      simp [UserAgent.createBusinessPlanDocx, createBusinessPlanFromTemplate,
        hepn, truthyOrNone, hne, jsOrStr, isHexColor_strip_ne_empty hhex]
  · intro hep hsp
    have hepn : truthyOrNone (jsOrOpt ep user.primaryColor) = none := by
      cases ep with
      | none => simp [jsOrOpt]; exact truthyOrNone_of_false hsp
      | some e =>
        by_cases he : e = ""
        · simp [jsOrOpt, he]; exact truthyOrNone_of_false hsp
        · simp [jsTruthyStr, he] at hep
    cases persistOk <;>
      simp [UserAgent.createBusinessPlanDocx, createBusinessPlanFromTemplate,
        hepn, jsOrStr]
  · intro p hp hhex
    subst hp
    have hne := isHexColor_ne_empty hhex
    cases persistOk <;>
      simp [UserAgent.createBusinessPlanDocx, createBusinessPlanFromTemplate,
        jsOrOpt, truthyOrNone, hne, jsOrStr, isHexColor_strip_ne_empty hhex]
  · intro hes p hp hhex
    have hne := isHexColor_ne_empty hhex
    have hesn : jsOrOpt es user.secondaryColor = some p := by
      cases es with
      | none => simp [jsOrOpt, hp]
      | some e =>
        by_cases he : e = ""
        · simp [jsOrOpt, he, hp]
        · simp [jsTruthyStr, he] at hes
    cases persistOk <;>
      simp [UserAgent.createBusinessPlanDocx, createBusinessPlanFromTemplate,
        hesn, truthyOrNone, hne, jsOrStr, isHexColor_strip_ne_empty hhex]
  · intro hes hss
    have hesn : truthyOrNone (jsOrOpt es user.secondaryColor) = none := by
      cases es with
      | none => simp [jsOrOpt]; exact truthyOrNone_of_false hss
      | some e =>
        by_cases he : e = ""
        · simp [jsOrOpt, he]; exact truthyOrNone_of_false hss
        · simp [jsTruthyStr, he] at hes
    cases persistOk <;>
      simp [UserAgent.createBusinessPlanDocx, createBusinessPlanFromTemplate,
        hesn, jsOrStr]
  · intro l buf hl hlne hdec
    cases persistOk <;>
      simp [UserAgent.createBusinessPlanDocx, createBusinessPlanFromTemplate,
        hl, truthyOrNone, hlne, resolveImage, jsTruthyStr, hdec,
        appendSectionBlocks_eq]
  · intro l buf hstored hdl hlne hdec
    have h0 : truthyOrNone user.logo = none := truthyOrNone_of_false hstored
    have h1 : truthyOrNone (some l) = some l := by simp [truthyOrNone, hlne]
    cases persistOk <;>
      simp [UserAgent.createBusinessPlanDocx, createBusinessPlanFromTemplate,
        h0, hdl, h1, hlne, resolveImage, jsTruthyStr, hdec,
        appendSectionBlocks_eq]
  · intro hstored hdl
    have h0 : truthyOrNone user.logo = none := truthyOrNone_of_false hstored
    have h2 : truthyOrNone (none : Option String) = none := rfl
    cases persistOk <;>
    · simp [UserAgent.createBusinessPlanDocx, createBusinessPlanFromTemplate,
        h0, hdl, h2, resolveImage, jsTruthyStr,
        appendSectionBlocks_eq, countImageBlocks_append,
        countImageBlocks_sections, countImageBlocks, isImageBlock]
      intro a x hx hmem
      simp only [sectionBlocksSpec, List.mem_cons, List.mem_map] at hmem
      rcases hmem with rfl | ⟨p, _, rfl⟩ <;> rfl

/-- Witness for C3: explicit `#ABCDEF` wins for the primary color, the
stored `#222222` is used for the secondary (no explicit override), and
the stored logo is still embedded although an explicit color was given. -/
theorem claim_branding_resolution_witness :
    (UserAgent.createBusinessPlanDocx
      (some { logo := some "TE9HTw==", primaryColor := some "#111111",
              secondaryColor := some "#222222" })
      [] "T" [] (some "#ABCDEF") none none (fun _ => some [7])
      true).pkg.styles.heading1Color = "ABCDEF" ∧
    (UserAgent.createBusinessPlanDocx
      (some { logo := some "TE9HTw==", primaryColor := some "#111111",
              secondaryColor := some "#222222" })
      [] "T" [] (some "#ABCDEF") none none (fun _ => some [7])
      true).pkg.styles.heading2Color = "222222" ∧
    (UserAgent.createBusinessPlanDocx
      (some { logo := some "TE9HTw==", primaryColor := some "#111111",
              secondaryColor := some "#222222" })
      [] "T" [] (some "#ABCDEF") none none (fun _ => some [7])
      true).pkg.blocks.head? = some (DocBlock.image "png" [7]) := by
  have h := claim_branding_resolution
    { logo := some "TE9HTw==", primaryColor := some "#111111",
      secondaryColor := some "#222222" }
    [] "T" [] (some "#ABCDEF") none none (fun _ => some [7]) true
  refine ⟨h.1 "#ABCDEF" rfl (by decide), ?_, ?_⟩
  · exact h.2.2.2.2.1 rfl "#222222" rfl (by decide)
  · have himg := h.2.2.2.2.2.2.1 "TE9HTw==" [7] rfl (by decide) rfl
    have htype : imageTypeFor "TE9HTw==" = "png" := by decide
    rw [htype] at himg
    exact himg

/-- C4: when no logo can be resolved — the stored logo is absent/falsy and
the default asset is unreadable, or every base64 decode fails — the
generated package contains zero image blocks and the request still
succeeds. -/
theorem claim_missing_logo_degrades (client : Client)
    (files : List GeneratedFileRec) (title : String)
    (sections : List BusinessPlanSection) (dl : Option String)
    (dec : String → Option (List Nat))
    (h : (jsTruthyStr client.branding.logo = false ∧ dl = none) ∨
      (∀ s, dec s = none)) :
    countImageBlocks
      (BusinessAgent.createBusinessPlanDocx client files title sections dl dec
        true true).pkg.blocks = 0 ∧
    (BusinessAgent.createBusinessPlanDocx client files title sections dl dec
      true true).outcome =
      ToolOutcome.ok files.length
        (finalFilename title (nextVersion client.documents title))
        (nextVersion client.documents title) := by
  rw [createBusinessPlanDocx_ok_eq]
  refine ⟨?_, rfl⟩
  have hblocks :
      (generatedPackage client title sections dl dec).blocks =
        (match resolveImage
            (truthyOrNone (match truthyOrNone client.branding.logo with
              | some l => some l
              | none => dl)) none dec (fun _ => none) with
          | some (t, buf) => [DocBlock.image t buf]
          | none => []) ++
          DocBlock.titleBlock
            (versionedTitle title (nextVersion client.documents title)) ::
            sections.flatMap sectionBlocksSpec := by
    simp [generatedPackage, createBusinessPlanFromTemplate,
      appendSectionBlocks_eq]
  have hnone : resolveImage
      (truthyOrNone (match truthyOrNone client.branding.logo with
        | some l => some l
        | none => dl)) none dec (fun _ => none) = none := by
    rcases h with ⟨hlogo, hdl⟩ | hdec
    · rw [truthyOrNone_of_false hlogo, hdl]
      rfl
    · rw [resolveImage]
      split
      · rename_i htr
        simp [hdec]
      · simp [jsTruthyStr]
  rw [hblocks, hnone]
  simp [countImageBlocks_append, countImageBlocks_sections, countImageBlocks,
    isImageBlock]
  intro a x hx hmem
  simp only [sectionBlocksSpec, List.mem_cons, List.mem_map] at hmem
  rcases hmem with rfl | ⟨p, _, rfl⟩ <;> rfl

/-- Witness for C4: a client with no stored logo and an unreadable default
asset still gets a successful generation with zero image blocks. -/
theorem claim_missing_logo_degrades_witness :
    countImageBlocks
      (BusinessAgent.createBusinessPlanDocx {} [] "T" [] none (fun _ => none)
        true true).pkg.blocks = 0 ∧
    (BusinessAgent.createBusinessPlanDocx {} [] "T" [] none (fun _ => none)
      true true).outcome = ToolOutcome.ok 0 (finalFilename "T" 1) 1 := by
  have h := claim_missing_logo_degrades {} [] "T" [] none (fun _ => none)
    (Or.inl ⟨rfl, rfl⟩)
  exact ⟨h.1, h.2⟩

/-- C5: within one generation request the artifact blob is persisted
before the history entry is appended — on the success path the completed
operations are exactly read, encode, persist, append in that order and the
appended entry references a file present in the store; if persistence
fails the history append never runs, the client's document list and the
file store are unchanged, and the request fails; if the append fails after
a successful persist, the orphaned artifact stays in the store without
rollback, the document list is unchanged, and the request fails. -/
theorem claim_persist_before_append (client : Client)
    (files : List GeneratedFileRec) (title : String)
    (sections : List BusinessPlanSection) (dl : Option String)
    (dec : String → Option (List Nat)) :
    (∀ appendOk,
      (BusinessAgent.createBusinessPlanDocx client files title sections dl dec
        false appendOk).client = client ∧
      (BusinessAgent.createBusinessPlanDocx client files title sections dl dec
        false appendOk).files = files ∧
      (BusinessAgent.createBusinessPlanDocx client files title sections dl dec
        false appendOk).outcome = ToolOutcome.failed ∧
      StoreOp.persistArtifact ∉
        (BusinessAgent.createBusinessPlanDocx client files title sections dl dec
          false appendOk).trace ∧
      StoreOp.appendHistory ∉
        (BusinessAgent.createBusinessPlanDocx client files title sections dl dec
          false appendOk).trace) ∧
    ((BusinessAgent.createBusinessPlanDocx client files title sections dl dec
        true false).client = client ∧
      (∃ f, (BusinessAgent.createBusinessPlanDocx client files title sections dl
        dec true false).files = files ++ [f]) ∧
      (BusinessAgent.createBusinessPlanDocx client files title sections dl dec
        true false).outcome = ToolOutcome.failed) ∧
    ((BusinessAgent.createBusinessPlanDocx client files title sections dl dec
        true true).trace =
      [StoreOp.readOwnerRecord, StoreOp.encodeDocument, StoreOp.persistArtifact,
        StoreOp.appendHistory] ∧
      (∃ e, (BusinessAgent.createBusinessPlanDocx client files title sections dl
          dec true true).client.documents = client.documents ++ [e] ∧
        ∃ f, f ∈ (BusinessAgent.createBusinessPlanDocx client files title
            sections dl dec true true).files ∧ e.fileId = some f.id)) := by
  refine ⟨?_, ⟨?_, ?_, ?_⟩, ?_, ?_⟩
  · intro appendOk
    rw [createBusinessPlanDocx_persistFail_eq]
    refine ⟨rfl, rfl, rfl, by simp, by simp⟩
  · rw [createBusinessPlanDocx_appendFail_eq]
  · rw [createBusinessPlanDocx_appendFail_eq]
    exact ⟨_, rfl⟩
  · rw [createBusinessPlanDocx_appendFail_eq]
  · rw [createBusinessPlanDocx_ok_eq]
  · rw [createBusinessPlanDocx_ok_eq]
    refine ⟨_, rfl, ?_⟩
    refine ⟨⟨files.length,
        finalFilename title (nextVersion client.documents title),
        docxContentType,
        generatedPackage client title sections dl dec⟩, ?_, rfl⟩
    simp

/-- Witness for C5: at a concrete request, a failed persist leaves the
store empty, and the success path completes persist before append. -/
theorem claim_persist_before_append_witness :
    (BusinessAgent.createBusinessPlanDocx {} [] "T" [] none (fun _ => none)
      false true).files = [] ∧
    (BusinessAgent.createBusinessPlanDocx {} [] "T" [] none (fun _ => none)
      true true).trace =
      [StoreOp.readOwnerRecord, StoreOp.encodeDocument, StoreOp.persistArtifact,
        StoreOp.appendHistory] := by
  have h := claim_persist_before_append {} [] "T" [] none (fun _ => none)
  exact ⟨(h.1 true).2.1, h.2.2.1⟩

/-- C6 counterexample: the claim says a request with a malformed explicit
color (`"#ZZZZZZ"`) is rejected with an InputValidationError before any
encoding work and before any storage access.  At this concrete request the
embedded user-path tool instead reads the stored branding, encodes the
document with `"ZZZZZZ"` as the heading-1 style color, persists the
artifact, and reports success — no validation or rejection exists. -/
theorem claim_input_validation_cex :
    (UserAgent.createBusinessPlanDocx
      (some { logo := none, primaryColor := some "#111111",
              secondaryColor := none })
      [] "Plan" [] (some "#ZZZZZZ") none none (fun _ => none) true).outcome =
      RouteOutcome.ok 0 "plan.docx" ∧
    (UserAgent.createBusinessPlanDocx
      (some { logo := none, primaryColor := some "#111111",
              secondaryColor := none })
      [] "Plan" [] (some "#ZZZZZZ") none none (fun _ => none)
      true).pkg.styles.heading1Color = "ZZZZZZ" ∧
    (UserAgent.createBusinessPlanDocx
      (some { logo := none, primaryColor := some "#111111",
              secondaryColor := none })
      [] "Plan" [] (some "#ZZZZZZ") none none (fun _ => none) true).trace =
      [StoreOp.readOwnerRecord, StoreOp.encodeDocument,
        StoreOp.persistArtifact] := by
  refine ⟨by decide, by decide, by decide⟩

/-- C6 amended: no input validation is performed on explicitly supplied
color values; a generation request carrying `primaryColor = "#ZZZZZZ"`
proceeds through the stored-branding read and the encoding, uses the
hash-stripped remainder `"ZZZZZZ"` directly as the heading-1 style color,
and succeeds whenever persistence succeeds. -/
theorem claim_input_validation_amended (user : Option UserRecord)
    (files : List GeneratedFileRec) (title : String)
    (sections : List BusinessPlanSection) (es dl : Option String)
    (dec : String → Option (List Nat)) :
    (UserAgent.createBusinessPlanDocx user files title sections (some "#ZZZZZZ")
      es dl dec true).outcome =
      RouteOutcome.ok files.length (jsSanitize title ++ ".docx") ∧
    (UserAgent.createBusinessPlanDocx user files title sections (some "#ZZZZZZ")
      es dl dec true).pkg.styles.heading1Color = "ZZZZZZ" ∧
    (UserAgent.createBusinessPlanDocx user files title sections (some "#ZZZZZZ")
      es dl dec true).trace =
      [StoreOp.readOwnerRecord, StoreOp.encodeDocument,
        StoreOp.persistArtifact] := by
  refine ⟨by simp [UserAgent.createBusinessPlanDocx], ?_,
    by simp [UserAgent.createBusinessPlanDocx]⟩
  have hz : jsOrOpt (some "#ZZZZZZ") (match user with
      | some u => u.primaryColor
      | none => none) = some "#ZZZZZZ" := by
    simp [jsOrOpt]
  simp [UserAgent.createBusinessPlanDocx, createBusinessPlanFromTemplate, hz,
    truthyOrNone, jsOrStr, replaceFirstHash, removeFirstHash]

/-- C7: a valid request with an empty sections list still encodes to a
package with exactly one title block, preceded by exactly one image block
when the branding resolved a logo, and no heading or paragraph blocks. -/
theorem claim_empty_sections (options : BusinessPlanTemplateOptions)
    (bufferFromBase64 readFile : String → Option (List Nat))
    (hs : options.sections = []) :
    ((∃ t buf,
        (createBusinessPlanFromTemplate options bufferFromBase64 readFile).blocks =
          [DocBlock.image t buf, DocBlock.titleBlock options.title]) ∨
      (createBusinessPlanFromTemplate options bufferFromBase64 readFile).blocks =
        [DocBlock.titleBlock options.title]) ∧
    ((createBusinessPlanFromTemplate options bufferFromBase64 readFile).blocks.filter
        isTitleBlock).length = 1 ∧
    ((createBusinessPlanFromTemplate options bufferFromBase64 readFile).blocks.filter
        isHeadingBlock).length = 0 ∧
    ((createBusinessPlanFromTemplate options bufferFromBase64 readFile).blocks.filter
        isParaBlock).length = 0 := by
  cases hres : resolveImage options.logoData options.logoPath bufferFromBase64
    readFile with
  | none =>
    refine ⟨Or.inr ?_, ?_, ?_, ?_⟩ <;>
      simp [createBusinessPlanFromTemplate, hres, hs, appendSectionBlocks,
        isTitleBlock, isHeadingBlock, isParaBlock]
  | some tb =>
    obtain ⟨t, buf⟩ := tb
    refine ⟨Or.inl ⟨t, buf, ?_⟩, ?_, ?_, ?_⟩ <;>
      simp [createBusinessPlanFromTemplate, hres, hs, appendSectionBlocks,
        isTitleBlock, isHeadingBlock, isParaBlock]

/-- Witness for C7: a concrete empty-sections request with no logo. -/
theorem claim_empty_sections_witness :
    ((∃ t buf,
        (createBusinessPlanFromTemplate { title := "T", sections := [] }
          (fun _ => none) (fun _ => none)).blocks =
          [DocBlock.image t buf, DocBlock.titleBlock "T"]) ∨
      (createBusinessPlanFromTemplate { title := "T", sections := [] }
        (fun _ => none) (fun _ => none)).blocks = [DocBlock.titleBlock "T"]) ∧
    ((createBusinessPlanFromTemplate { title := "T", sections := [] }
        (fun _ => none) (fun _ => none)).blocks.filter isTitleBlock).length = 1 ∧
    ((createBusinessPlanFromTemplate { title := "T", sections := [] }
        (fun _ => none) (fun _ => none)).blocks.filter isHeadingBlock).length = 0 ∧
    ((createBusinessPlanFromTemplate { title := "T", sections := [] }
        (fun _ => none) (fun _ => none)).blocks.filter isParaBlock).length = 0 :=
  claim_empty_sections { title := "T", sections := [] } (fun _ => none)
    (fun _ => none) rfl

/-- C8: the filename sanitization map (replace every character outside
`[a-zA-Z0-9]` with `'_'`, then lower-case) is idempotent: re-sanitizing an
already-sanitized string returns it unchanged. -/
theorem claim_sanitize_idempotent (s : String) :
    jsSanitize (jsSanitize s) = jsSanitize s :=
  congrArg String.mk (jsSanitize_idem_data s.data)

/-- C9: both branding write paths are partial merges — a field not
supplied in the update keeps its previously stored value, a stored field
is never cleared by any update, and the client write path leaves the
document list untouched. -/
theorem claim_branding_partial_merge (client : Client) (user : UserRecord)
    (logo primaryColor secondaryColor font : Option String) :
    (logo = none →
      (BusinessAgent.saveClientBranding client logo primaryColor secondaryColor
        font).branding.logo = client.branding.logo) ∧
    (primaryColor = none →
      (BusinessAgent.saveClientBranding client logo primaryColor secondaryColor
        font).branding.primaryColor = client.branding.primaryColor) ∧
    (secondaryColor = none →
      (BusinessAgent.saveClientBranding client logo primaryColor secondaryColor
        font).branding.secondaryColor = client.branding.secondaryColor) ∧
    (font = none →
      (BusinessAgent.saveClientBranding client logo primaryColor secondaryColor
        font).branding.font = client.branding.font) ∧
    (client.branding.logo.isSome = true →
      (BusinessAgent.saveClientBranding client logo primaryColor secondaryColor
        font).branding.logo.isSome = true) ∧
    (client.branding.primaryColor.isSome = true →
      (BusinessAgent.saveClientBranding client logo primaryColor secondaryColor
        font).branding.primaryColor.isSome = true) ∧
    (client.branding.secondaryColor.isSome = true →
      (BusinessAgent.saveClientBranding client logo primaryColor secondaryColor
        font).branding.secondaryColor.isSome = true) ∧
    (client.branding.font.isSome = true →
      (BusinessAgent.saveClientBranding client logo primaryColor secondaryColor
        font).branding.font.isSome = true) ∧
    (BusinessAgent.saveClientBranding client logo primaryColor secondaryColor
      font).documents = client.documents ∧
    (logo = none →
      (UserAgent.saveBranding user logo primaryColor secondaryColor).logo =
        user.logo) ∧
    (primaryColor = none →
      (UserAgent.saveBranding user logo primaryColor secondaryColor).primaryColor =
        user.primaryColor) ∧
    (secondaryColor = none →
      (UserAgent.saveBranding user logo primaryColor secondaryColor).secondaryColor =
        user.secondaryColor) ∧
    (user.logo.isSome = true →
      (UserAgent.saveBranding user logo primaryColor secondaryColor).logo.isSome =
        true) ∧
    (user.primaryColor.isSome = true →
      (UserAgent.saveBranding user logo primaryColor
        secondaryColor).primaryColor.isSome = true) ∧
    (user.secondaryColor.isSome = true →
      (UserAgent.saveBranding user logo primaryColor
        secondaryColor).secondaryColor.isSome = true) := by
  refine ⟨?_, ?_, ?_, ?_, ?_, ?_, ?_, ?_, ?_, ?_, ?_, ?_, ?_, ?_, ?_⟩ <;>
    first
    | (intro h; subst h;
        simp [BusinessAgent.saveClientBranding, UserAgent.saveBranding,
          mergeField_keep])
    | (intro h;
        simpa [BusinessAgent.saveClientBranding, UserAgent.saveBranding] using
          mergeField_isSome _ _ h)
    | simp [BusinessAgent.saveClientBranding]

/-- Witness for C9: an update supplying only a primary color leaves the
stored logo in place and keeps the stored primary color present. -/
theorem claim_branding_partial_merge_witness :
    ((BusinessAgent.saveClientBranding
        { branding := { logo := some "L", primaryColor := some "#111111" } }
        none (some "#222222") none none).branding.logo = some "L") ∧
    ((BusinessAgent.saveClientBranding
        { branding := { logo := some "L", primaryColor := some "#111111" } }
        none (some "#222222") none none).branding.primaryColor.isSome =
      true) := by
  have h := claim_branding_partial_merge
    { branding := { logo := some "L", primaryColor := some "#111111" } }
    {} none (some "#222222") none none
  exact ⟨h.1 rfl, h.2.2.2.2.2.1 (by decide)⟩

/-- C10: uploaded context documents and generated artifacts share the same
per-client documents list; an entry saved via `saveClientDocument` (which
pushes no version) whose name starts with the requested title participates
in the next-version computation with its version counting as `1`, so the
first generated document with that title receives version `2` rather than
`1`. -/
theorem claim_shared_history_versioning (client : Client)
    (files : List GeneratedFileRec) (name content : String)
    (dtype : Option String) (title : String)
    (sections : List BusinessPlanSection) (dl : Option String)
    (dec : String → Option (List Nat))
    (hno : ∀ d ∈ client.documents, jsStartsWith d.name title = false)
    (hmatch : jsStartsWith name title = true) :
    (BusinessAgent.saveClientDocument client name content dtype).documents =
      client.documents ++
        [{ name := name, content := some content,
           type := some (jsOrStr dtype "text"), fileId := none,
           version := none }] ∧
    jsOrNat (none : Option Nat) 1 = 1 ∧
    nextVersion
      (BusinessAgent.saveClientDocument client name content dtype).documents
      title = 2 ∧
    (BusinessAgent.createBusinessPlanDocx
      (BusinessAgent.saveClientDocument client name content dtype) files title
      sections dl dec true true).outcome =
      ToolOutcome.ok files.length (finalFilename title 2) 2 := by
  have hdocs : (BusinessAgent.saveClientDocument client name content
      dtype).documents =
      client.documents ++
        [{ name := name, content := some content,
           type := some (jsOrStr dtype "text"), fileId := none,
           version := none }] := rfl
  have hf1 : client.documents.filter (fun d => jsStartsWith d.name title) = [] :=
    List.filter_eq_nil_iff.mpr (fun d hd => by simp [hno d hd])
  have hv : nextVersion
      (BusinessAgent.saveClientDocument client name content dtype).documents
      title = 2 := by
    simp only [nextVersion, sameTitleDocs, hdocs, List.filter_append, hf1]
    simp [hmatch, jsOrNat]
  refine ⟨rfl, rfl, hv, ?_⟩
  rw [createBusinessPlanDocx_ok_eq, hv]

/-- Witness for C10: after saving an uploaded document named
`"Plan notes"`, the first generated document with title `"Plan"` gets
version `2`. -/
theorem claim_shared_history_versioning_witness :
    nextVersion
      (BusinessAgent.saveClientDocument
        { branding := {}, documents := [] } "Plan notes" "raw text"
        none).documents "Plan" = 2 ∧
    (BusinessAgent.createBusinessPlanDocx
      (BusinessAgent.saveClientDocument
        { branding := {}, documents := [] } "Plan notes" "raw text" none)
      [] "Plan" [] none (fun _ => none) true true).outcome =
      ToolOutcome.ok 0 (finalFilename "Plan" 2) 2 := by
  have h := claim_shared_history_versioning
    { branding := {}, documents := [] } [] "Plan notes" "raw text" none "Plan"
    [] none (fun _ => none) (by simp) (by decide)
  exact ⟨h.2.2.1, h.2.2.2⟩

end Aire
